import Mathlib

/-!
Verification of the markdown-toggle view-mode extension.

The development shallowly embeds `src/extension.ts` (the persisted variant:
an in-memory cache `viewStates`, a durable `globalState` mirror keyed by the
namespace string, a `lastToggledUri` slot, and the `toggleMarkdownView`
command) together with the stale-entry reconciler described in the project
documentation. Effects observable to the host (warnings, errors, host view
actions, the trailing UI refresh) are recorded as an explicit trace.
-/

namespace MarkdownToggle

/-- The two-valued view mode, `'source' | 'preview'` in the source. -/
inductive Mode where
  | source
  | preview
deriving DecidableEq

/-- The next mode chosen by the toggle branch: the `currentState === 'source'`
branch moves to `preview`, the other branch moves to `source`. -/
def nextMode : Mode → Mode
  | Mode.source => Mode.preview
  | Mode.preview => Mode.source

/-- The part of a `vscode.TextEditor` the extension reads: the document URI
in canonical string form and its language id. -/
structure Editor where
  uri : String
  languageId : String
deriving DecidableEq

/-- Association-list lookup, the embedding of `Map.get` /
`globalState.get`. -/
def lookupA : List (String × Mode) → String → Option Mode
  | [], _ => none
  | (k', v) :: rest, k => if k' = k then some v else lookupA rest k

/-- Association-list update, the embedding of `Map.set` /
`globalState.update` with a value. -/
def setA : List (String × Mode) → String → Mode → List (String × Mode)
  | [], k, v => [(k, v)]
  | (k', v') :: rest, k, v =>
    if k' = k then (k, v) :: rest else (k', v') :: setA rest k v

/-- Association-list removal of a key, the embedding of `Map.delete` /
`globalState.update` with `undefined`. -/
def eraseA : List (String × Mode) → String → List (String × Mode)
  | [], _ => []
  | (k', v') :: rest, k =>
    if k' = k then eraseA rest k else (k', v') :: eraseA rest k

/-- The module-level mutable state of `extension.ts`: the cache `viewStates`,
the durable `globalState` contents, the `lastToggledUri` slot, and whether
`extCtx` has been set by `activate`. -/
structure ExtState where
  viewStates : List (String × Mode)
  globalState : List (String × Mode)
  lastToggledUri : Option String
  hasCtx : Bool
deriving DecidableEq

/-- The fixed durable-key namespace string. -/
def nsStr : String := "markdownToggle.viewMode."

/-- The durable key for an identity: the namespace string concatenated with
the canonical URI, as in the template literal of `storeState`. -/
def storeKey (key : String) : String := nsStr ++ key

/-- Embedding of `getStoredState`: `undefined` when `extCtx` is unset,
otherwise the durable entry under the namespaced key. -/
def getStoredState (s : ExtState) (key : String) : Option Mode :=
  if s.hasCtx then lookupA s.globalState (storeKey key) else none

/-- Embedding of `viewStates.get(key)`. -/
def cacheGet (s : ExtState) (key : String) : Option Mode :=
  lookupA s.viewStates key

/-- The resolution chain `viewStates.get(key) || getStoredState(key) ||
configDefault` appearing verbatim in `toggleMarkdownView` (line 149) and in
`updateUI` (line 180). Mode strings are never falsy, so `||` is a
presence chain. -/
def resolvedMode (s : ExtState) (configDefault : Mode) (key : String) : Mode :=
  match cacheGet s key with
  | some m => m
  | none =>
    match getStoredState s key with
    | some m => m
    | none => configDefault

/-- Embedding of the exported `getViewState`: cache first, then durable
store, with no configuration fallback. -/
def getViewState (s : ExtState) (uri : String) : Option Mode :=
  match cacheGet s uri with
  | some m => some m
  | none => getStoredState s uri

/-- Embedding of `storeState`: always writes the cache; writes the durable
store only when `extCtx` is set. -/
def storeState (s : ExtState) (key : String) (m : Mode) : ExtState :=
  ExtState.mk (setA s.viewStates key m)
    (if s.hasCtx then setA s.globalState (storeKey key) m else s.globalState)
    s.lastToggledUri s.hasCtx

/-- The host-environment snapshot a single `toggleMarkdownView` call reads:
the active editor, the freshly read `markdownToggle.defaultView` setting, and
whether each host view action would throw (with its message). -/
structure Host where
  activeEditor : Option Editor
  configDefault : Mode
  showPreviewError : Option String
  showSourceError : Option String

/-- Observable effects of one invocation, in order. -/
inductive Effect where
  | showWarning (msg : String)
  | showError (msg : String)
  | execShowPreview (uri : String)
  | execShowSource (uri : String)
  | runUpdateUI
deriving DecidableEq

/-- How one `toggleMarkdownView` invocation ended. -/
inductive ToggleOutcome where
  | noTarget
  | success (key : String) (next : Mode)
  | hostFailure (key : String) (next : Mode)
deriving DecidableEq

/-- Result of one `toggleMarkdownView` invocation: post state, effect trace,
outcome. -/
structure ToggleResult where
  state : ExtState
  effects : List Effect
  outcome : ToggleOutcome

/-- Target-identity determination at the top of `toggleMarkdownView`: a
focused markdown editor wins; with no editor at all, `lastToggledUri` is
used; a focused non-markdown editor yields no target. -/
def resolveTarget (host : Host) (s : ExtState) : Option String :=
  match host.activeEditor with
  | some e => if e.languageId = "markdown" then some e.uri else none
  | none => s.lastToggledUri

/-- State after a successful host action: `storeState key next` followed by
`lastToggledUri = docUri`. -/
def successState (s : ExtState) (key : String) (m : Mode) : ExtState :=
  ExtState.mk (setA s.viewStates key m)
    (if s.hasCtx then setA s.globalState (storeKey key) m else s.globalState)
    (some key) s.hasCtx

/-- Embedding of `toggleMarkdownView`. The no-target branch warns and
returns before the trailing `updateUI` call; the try block invokes the host
action for the next mode, then `storeState` and `lastToggledUri`; the catch
branch reports the error with its cause and leaves state untouched; both
try-block exits fall through to `updateUI`. -/
def toggleMarkdownView (host : Host) (s : ExtState) : ToggleResult :=
  match resolveTarget host s with
  | none =>
    ToggleResult.mk s [Effect.showWarning "No markdown document to toggle."]
      ToggleOutcome.noTarget
  | some uri =>
    match resolvedMode s host.configDefault uri with
    | Mode.source =>
      match host.showPreviewError with
      | some c =>
        ToggleResult.mk s
          [Effect.execShowPreview uri,
           Effect.showError ("Failed to toggle markdown view: " ++ c),
           Effect.runUpdateUI]
          (ToggleOutcome.hostFailure uri Mode.preview)
      | none =>
        ToggleResult.mk (successState s uri Mode.preview)
          [Effect.execShowPreview uri, Effect.runUpdateUI]
          (ToggleOutcome.success uri Mode.preview)
    | Mode.preview =>
      match host.showSourceError with
      | some c =>
        ToggleResult.mk s
          [Effect.execShowSource uri,
           Effect.showError ("Failed to toggle markdown view: " ++ c),
           Effect.runUpdateUI]
          (ToggleOutcome.hostFailure uri Mode.source)
      | none =>
        ToggleResult.mk (successState s uri Mode.source)
          [Effect.execShowSource uri, Effect.runUpdateUI]
          (ToggleOutcome.success uri Mode.source)

/-- What the status bar shows when visible. -/
structure StatusBarView where
  text : String
  tooltip : String
deriving DecidableEq

/-- Embedding of `updateUI` with a status-bar handle: hidden for no editor
or a non-markdown editor; otherwise label and tooltip derived from the same
resolution chain as the toggle. -/
def updateUI (editor : Option Editor) (configDefault : Mode) (s : ExtState) :
    Option StatusBarView :=
  match editor with
  | none => none
  | some e =>
    if e.languageId = "markdown" then
      match resolvedMode s configDefault e.uri with
      | Mode.source =>
        some (StatusBarView.mk "$(eye) Preview" "Switch to Markdown Preview")
      | Mode.preview =>
        some (StatusBarView.mk "$(code) Source" "Switch to Source")
    else none

/-- Modelled from the spec: the structured identity obtained by parsing a
raw identity string, carrying the resource scheme. The reconciler source
(`cleanupStaleEntries` and `getAllStoredKeys`, described in the project
documentation) is not among the provided source files. -/
structure ParsedIdentity where
  scheme : String
  rest : String
deriving DecidableEq

/-- Modelled from the spec: scanning a character list for the first
scheme separator, accumulating the scheme characters seen so far. -/
def splitSchemeAux (acc : List Char) : List Char → Option (List Char × List Char)
  | ':' :: '/' :: '/' :: rest => some (acc.reverse, rest)
  | c :: rest => splitSchemeAux (c :: acc) rest
  | [] => none

/-- Modelled from the spec: parsing a raw identity string into a structured
identity. A string of the shape `scheme://rest` with a nonempty scheme
parses; anything else is a parse failure. -/
def parseIdentity (raw : String) : Option ParsedIdentity :=
  match splitSchemeAux [] raw.data with
  | some (sch, rest) =>
    if sch = [] then none
    else some (ParsedIdentity.mk (String.mk sch) (String.mk rest))
  | none => none

/-- Modelled from the spec: removing an expected leading character sequence;
`none` when the sequence is not a leading segment. -/
def stripNs : List Char → List Char → Option (List Char)
  | [], l => some l
  | _ :: _, [] => none
  | p :: ps, c :: cs => if p = c then stripNs ps cs else none

/-- Modelled from the spec: the raw identity string recovered from a durable
key in this extension's namespace — the key with the namespace stripped —
and `none` for keys outside the namespace. -/
def rawIdOf (k : String) : Option String :=
  match stripNs nsStr.data k.data with
  | some cs => some (String.mk cs)
  | none => none

/-- Modelled from the spec: the external capabilities the reconciler
consumes — which schemes denote filesystem-backed resources, and the
existence probe over raw identities. -/
structure CleanupEnv where
  isFsScheme : String → Bool
  statExists : String → Bool

/-- Modelled from the spec: whether the reconciler deletes the durable entry
under key `k` — the key is in this extension's namespace and its raw
identity either fails to parse or is filesystem-backed and probed absent. -/
def durableRemovable (env : CleanupEnv) (k : String) : Bool :=
  match rawIdOf k with
  | none => false
  | some raw =>
    match parseIdentity raw with
    | none => true
    | some p => env.isFsScheme p.scheme && !(env.statExists raw)

/-- Modelled from the spec: the Mode Cache key deleted alongside the durable
entry under `k` — present only for a parsed, filesystem-backed identity
probed absent (a parse failure deletes the durable entry alone). -/
def cacheEraseKey (env : CleanupEnv) (k : String) : Option String :=
  match rawIdOf k with
  | none => none
  | some raw =>
    match parseIdentity raw with
    | none => none
    | some p =>
      if env.isFsScheme p.scheme && !(env.statExists raw) then some raw else none

/-- Modelled from the spec: one pass of the reconciler over the listed
durable entries, threading the Mode Cache and the removal count. Keys
outside the namespace and entries it keeps pass through unchanged. -/
def cleanupGo (env : CleanupEnv) :
    List (String × Mode) → List (String × Mode) →
    List (String × Mode) × List (String × Mode) × Nat
  | [], cache => ([], cache, 0)
  | (k, v) :: rest, cache =>
    if durableRemovable env k then
      let cache2 :=
        match cacheEraseKey env k with
        | some raw => eraseA cache raw
        | none => cache
      let r := cleanupGo env rest cache2
      (r.1, r.2.1, r.2.2 + 1)
    else
      let r := cleanupGo env rest cache
      ((k, v) :: r.1, r.2.1, r.2.2)

/-- Modelled from the spec: `cleanupStaleEntries`, returning the updated
state and the count of durable entries removed. -/
def cleanupStaleEntries (env : CleanupEnv) (s : ExtState) : ExtState × Nat :=
  let r := cleanupGo env s.globalState s.viewStates
  (ExtState.mk r.2.1 r.1 s.lastToggledUri s.hasCtx, r.2.2)

/-! ### Concrete fixtures used by witnesses -/

/-- A fresh activated session: empty cache, empty store, no last toggle. -/
def exEmpty : ExtState := ExtState.mk [] [] none true

/-- A focused markdown editor on a concrete document. -/
def exEditorA : Editor := Editor.mk "doc://a" "markdown"

/-- A host snapshot where both view actions succeed and the default is
`source`. -/
def exHostOk : Host := Host.mk (some exEditorA) Mode.source none none

/-- A host snapshot with no focused editor. -/
def exHostNoEd : Host := Host.mk none Mode.source none none

/-- A host snapshot focused on a non-markdown editor. -/
def exHostPlain : Host :=
  Host.mk (some (Editor.mk "doc://x" "plaintext")) Mode.source none none

/-- A host snapshot whose preview action throws with a concrete cause. -/
def exHostBroken : Host := Host.mk (some exEditorA) Mode.source (some "boom") none

/-- A session that remembers a last-toggled identity. -/
def exStateWithLast : ExtState := ExtState.mk [] [] (some "doc://a") true

/-- A reconciler environment: only `file` identities are
filesystem-backed, and every probe reports the resource absent. -/
def exEnv : CleanupEnv := CleanupEnv.mk (fun sch => sch == "file") (fun _ => false)

/-- A session holding a stale `file` entry in cache and store. -/
def exStale : ExtState :=
  ExtState.mk [("file:///b", Mode.preview)]
    [("markdownToggle.viewMode.file:///b", Mode.preview)] none true

/-- A session holding an `untitled` entry in cache and store. -/
def exUntitled : ExtState :=
  ExtState.mk [("untitled://c", Mode.source)]
    [("markdownToggle.viewMode.untitled://c", Mode.source)] none true

/-! ### Association-list lemmas -/

theorem lookupA_setA_self (l : List (String × Mode)) (k : String) (v : Mode) :
    lookupA (setA l k v) k = some v := by
  induction l with
  | nil => simp [setA, lookupA]
  | cons hd tl ih =>
    obtain ⟨k', v'⟩ := hd
    by_cases hk : k' = k
    · simp [setA, hk, lookupA]
    · simp [setA, hk, lookupA, ih]

theorem lookupA_eraseA_self (l : List (String × Mode)) (k : String) :
    lookupA (eraseA l k) k = none := by
  induction l with
  | nil => rfl
  | cons hd tl ih =>
    obtain ⟨k', v'⟩ := hd
    by_cases hk : k' = k
    · simp [eraseA, hk, ih]
    · simp [eraseA, hk, lookupA, ih]

theorem lookupA_eraseA_ne (l : List (String × Mode)) (x u : String) (h : x ≠ u) :
    lookupA (eraseA l x) u = lookupA l u := by
  induction l with
  | nil => rfl
  | cons hd tl ih =>
    obtain ⟨k', v'⟩ := hd
    by_cases hk : k' = x
    · subst hk
      simp [eraseA, lookupA, h, ih]
    · simp [eraseA, hk, lookupA, ih]

/-! ### Resolution lemmas -/

theorem resolvedMode_cacheGet_some (s : ExtState) (d : Mode) (k : String) (m : Mode)
    (h : cacheGet s k = some m) : resolvedMode s d k = m := by
  simp [resolvedMode, h]

theorem cacheGet_successState_self (s : ExtState) (k : String) (m : Mode) :
    cacheGet (successState s k m) k = some m := by
  simp [cacheGet, successState, lookupA_setA_self]

/-- A successful invocation's post state and the performed transition: the
state is the success write for the reported key and mode, and the reported
mode is the next mode of the pre-state resolution. -/
theorem toggle_success_spec (host : Host) (s : ExtState) (k : String) (m : Mode)
    (h : (toggleMarkdownView host s).outcome = ToggleOutcome.success k m) :
    (toggleMarkdownView host s).state = successState s k m ∧
      m = nextMode (resolvedMode s host.configDefault k) := by
  rcases ht : resolveTarget host s with _ | uri
  · simp [toggleMarkdownView, ht] at h
  · cases hm : resolvedMode s host.configDefault uri with
    | source =>
      rcases he : host.showPreviewError with _ | c
      · have hres : toggleMarkdownView host s =
            ToggleResult.mk (successState s uri Mode.preview)
              [Effect.execShowPreview uri, Effect.runUpdateUI]
              (ToggleOutcome.success uri Mode.preview) := by
          simp [toggleMarkdownView, ht, hm, he]
        have h' : ToggleOutcome.success uri Mode.preview = ToggleOutcome.success k m := by
          rw [hres] at h; exact h
        injection h' with h1 h2
        subst h1; subst h2
        rw [hres]
        exact ⟨rfl, by rw [hm]; rfl⟩
      · simp [toggleMarkdownView, ht, hm, he] at h
    | preview =>
      rcases he : host.showSourceError with _ | c
      · have hres : toggleMarkdownView host s =
            ToggleResult.mk (successState s uri Mode.source)
              [Effect.execShowSource uri, Effect.runUpdateUI]
              (ToggleOutcome.success uri Mode.source) := by
          simp [toggleMarkdownView, ht, hm, he]
        have h' : ToggleOutcome.success uri Mode.source = ToggleOutcome.success k m := by
          rw [hres] at h; exact h
        injection h' with h1 h2
        subst h1; subst h2
        rw [hres]
        exact ⟨rfl, by rw [hm]; rfl⟩
      · simp [toggleMarkdownView, ht, hm, he] at h

/-! ### Claim theorems for the Toggle Engine -/

/-- C1: for a document identity whose resolved mode is `m`, two consecutive
`toggle()` invocations that both succeed and resolve the same identity
return the identity's resolved mode to `m`; the next-mode function maps
`source` to `preview` and `preview` to `source` with no other
transitions. -/
theorem toggle_twice_restores_mode (h1 h2 : Host) (s0 : ExtState) (k : String)
    (m1 m2 : Mode) (d : Mode)
    (e1 : (toggleMarkdownView h1 s0).outcome = ToggleOutcome.success k m1)
    (e2 : (toggleMarkdownView h2 (toggleMarkdownView h1 s0).state).outcome =
      ToggleOutcome.success k m2) :
    resolvedMode (toggleMarkdownView h2 (toggleMarkdownView h1 s0).state).state d k =
        resolvedMode s0 h1.configDefault k ∧
      nextMode Mode.source = Mode.preview ∧ nextMode Mode.preview = Mode.source := by
  obtain ⟨hs1, hm1⟩ := toggle_success_spec h1 s0 k m1 e1
  obtain ⟨hs2, hm2⟩ := toggle_success_spec h2 _ k m2 e2
  refine ⟨?_, rfl, rfl⟩
  rw [hs2, resolvedMode_cacheGet_some _ _ _ _ (cacheGet_successState_self _ _ _)]
  rw [hm2, hs1, resolvedMode_cacheGet_some _ _ _ _ (cacheGet_successState_self _ _ _)]
  rw [hm1]
  cases resolvedMode s0 h1.configDefault k <;> rfl

/-- Witness for C1: on a fresh session, two successful toggles of
`doc://a` return its resolved mode to the initial `source`. -/
theorem toggle_twice_restores_mode_witness :
    resolvedMode
        (toggleMarkdownView exHostOk (toggleMarkdownView exHostOk exEmpty).state).state
        Mode.preview "doc://a" =
      resolvedMode exEmpty exHostOk.configDefault "doc://a" ∧
      nextMode Mode.source = Mode.preview ∧ nextMode Mode.preview = Mode.source :=
  toggle_twice_restores_mode exHostOk exHostOk exEmpty "doc://a"
    Mode.preview Mode.source Mode.preview (by decide) (by decide)

/-- C2: the resolved mode is the cache entry when present, else the durable
store entry when present, else the configured default; the default is the
one passed to the resolution at hand (read fresh, never cached). -/
theorem resolved_mode_rule (s : ExtState) (d : Mode) (k : String) :
    (∀ m, cacheGet s k = some m → resolvedMode s d k = m) ∧
      (cacheGet s k = none →
        ∀ m, getStoredState s k = some m → resolvedMode s d k = m) ∧
      (cacheGet s k = none → getStoredState s k = none → resolvedMode s d k = d) := by
  refine ⟨fun m h => ?_, fun h1 m h2 => ?_, fun h1 h2 => ?_⟩
  · simp [resolvedMode, h]
  · simp [resolvedMode, h1, h2]
  · simp [resolvedMode, h1, h2]

/-- Witness for C2: on the empty session, resolution falls through to the
configured default just read. -/
theorem resolved_mode_rule_witness :
    resolvedMode exEmpty Mode.preview "doc://a" = Mode.preview :=
  (resolved_mode_rule exEmpty Mode.preview "doc://a").2.2 rfl rfl

/-- C3: in an activated session, after a successful `toggle()` the Mode
Cache and the Durable State Store hold equal mode values for the toggled
identity — the success write path updates both. -/
theorem toggle_success_cache_store_agree (host : Host) (s : ExtState)
    (k : String) (m : Mode) (hctx : s.hasCtx = true)
    (h : (toggleMarkdownView host s).outcome = ToggleOutcome.success k m) :
    cacheGet (toggleMarkdownView host s).state k = some m ∧
      getStoredState (toggleMarkdownView host s).state k = some m := by
  obtain ⟨hs, -⟩ := toggle_success_spec host s k m h
  rw [hs]
  exact ⟨cacheGet_successState_self s k m,
    by simp [getStoredState, successState, hctx, lookupA_setA_self]⟩

/-- Witness for C3: after the first successful toggle of `doc://a`, cache
and store both read `preview`. -/
theorem toggle_success_cache_store_agree_witness :
    cacheGet (toggleMarkdownView exHostOk exEmpty).state "doc://a" = some Mode.preview ∧
      getStoredState (toggleMarkdownView exHostOk exEmpty).state "doc://a" =
        some Mode.preview :=
  toggle_success_cache_store_agree exHostOk exEmpty "doc://a" Mode.preview rfl (by decide)

/-- C4: with no focused document of the managed kind and no last-toggled
identity, `toggle()` fails with no target: exactly one user-visible warning
is shown, no host action and no UI refresh occur, and the state is
unchanged. -/
theorem toggle_no_target (host : Host) (s : ExtState)
    (hed : host.activeEditor = none ∨
      ∃ e, host.activeEditor = some e ∧ e.languageId ≠ "markdown")
    (hlast : s.lastToggledUri = none) :
    toggleMarkdownView host s =
      ToggleResult.mk s [Effect.showWarning "No markdown document to toggle."]
        ToggleOutcome.noTarget := by
  have ht : resolveTarget host s = none := by
    rcases hed with h | ⟨e, he, hne⟩
    · simp [resolveTarget, h, hlast]
    · simp [resolveTarget, he, hne]
  simp [toggleMarkdownView, ht]

/-- Witness for C4: a fresh session with no focused editor warns and
changes nothing. -/
theorem toggle_no_target_witness :
    toggleMarkdownView exHostNoEd exEmpty =
      ToggleResult.mk exEmpty [Effect.showWarning "No markdown document to toggle."]
        ToggleOutcome.noTarget :=
  toggle_no_target exHostNoEd exEmpty (Or.inl rfl) rfl

/-- C5: when the invoked host action throws, the error is surfaced with its
underlying cause, the state (cache, store, last-toggled identity) is
unchanged, the identity's resolved mode is what it was before the attempt,
and a retry behaves exactly as the original attempt. -/
theorem toggle_host_failure_preserves_state (host : Host) (s : ExtState)
    (k : String) (m : Mode)
    (h : (toggleMarkdownView host s).outcome = ToggleOutcome.hostFailure k m) :
    (toggleMarkdownView host s).state = s ∧
      (∃ c, (host.showPreviewError = some c ∨ host.showSourceError = some c) ∧
        Effect.showError ("Failed to toggle markdown view: " ++ c) ∈
          (toggleMarkdownView host s).effects) ∧
      (∀ d, resolvedMode (toggleMarkdownView host s).state d k = resolvedMode s d k) ∧
      (∀ host2, toggleMarkdownView host2 (toggleMarkdownView host s).state =
        toggleMarkdownView host2 s) := by
  rcases ht : resolveTarget host s with _ | uri
  · simp [toggleMarkdownView, ht] at h
  · cases hm : resolvedMode s host.configDefault uri with
    | source =>
      rcases he : host.showPreviewError with _ | c
      · simp [toggleMarkdownView, ht, hm, he] at h
      · have hres : toggleMarkdownView host s =
            ToggleResult.mk s
              [Effect.execShowPreview uri,
               Effect.showError ("Failed to toggle markdown view: " ++ c),
               Effect.runUpdateUI]
              (ToggleOutcome.hostFailure uri Mode.preview) := by
          simp [toggleMarkdownView, ht, hm, he]
        rw [hres]
        exact ⟨rfl, ⟨c, Or.inl rfl, by simp⟩, fun d => rfl, fun host2 => rfl⟩
    | preview =>
      rcases he : host.showSourceError with _ | c
      · simp [toggleMarkdownView, ht, hm, he] at h
      · have hres : toggleMarkdownView host s =
            ToggleResult.mk s
              [Effect.execShowSource uri,
               Effect.showError ("Failed to toggle markdown view: " ++ c),
               Effect.runUpdateUI]
              (ToggleOutcome.hostFailure uri Mode.source) := by
          simp [toggleMarkdownView, ht, hm, he]
        rw [hres]
        exact ⟨rfl, ⟨c, Or.inr rfl, by simp⟩, fun d => rfl, fun host2 => rfl⟩

/-- Witness for C5: a preview action throwing with cause `boom` leaves the
fresh session untouched and surfaces the cause. -/
theorem toggle_host_failure_preserves_state_witness :
    (toggleMarkdownView exHostBroken exEmpty).state = exEmpty ∧
      (∃ c, (exHostBroken.showPreviewError = some c ∨
          exHostBroken.showSourceError = some c) ∧
        Effect.showError ("Failed to toggle markdown view: " ++ c) ∈
          (toggleMarkdownView exHostBroken exEmpty).effects) ∧
      (∀ d, resolvedMode (toggleMarkdownView exHostBroken exEmpty).state d "doc://a" =
        resolvedMode exEmpty d "doc://a") ∧
      (∀ host2, toggleMarkdownView host2 (toggleMarkdownView exHostBroken exEmpty).state =
        toggleMarkdownView host2 exEmpty) :=
  toggle_host_failure_preserves_state exHostBroken exEmpty "doc://a" Mode.preview
    (by decide)

/-- C8: for an identity with no prior cache or store entry and configured
default `source`, the first successful `toggle()` invokes the show-preview
host action and leaves the identity's resolved mode `preview`. -/
theorem first_toggle_from_default (host : Host) (s : ExtState) (k : String)
    (hc : cacheGet s k = none) (hst : getStoredState s k = none)
    (hd : host.configDefault = Mode.source)
    (ht : resolveTarget host s = some k)
    (he : host.showPreviewError = none) :
    (toggleMarkdownView host s).outcome = ToggleOutcome.success k Mode.preview ∧
      Effect.execShowPreview k ∈ (toggleMarkdownView host s).effects ∧
      ∀ d, resolvedMode (toggleMarkdownView host s).state d k = Mode.preview := by
  have hm : resolvedMode s host.configDefault k = Mode.source := by
    simp [resolvedMode, hc, hst, hd]
  have hres : toggleMarkdownView host s =
      ToggleResult.mk (successState s k Mode.preview)
        [Effect.execShowPreview k, Effect.runUpdateUI]
        (ToggleOutcome.success k Mode.preview) := by
    simp [toggleMarkdownView, ht, hm, he]
  rw [hres]
  exact ⟨rfl, by simp, fun d =>
    resolvedMode_cacheGet_some _ _ _ _ (cacheGet_successState_self s k Mode.preview)⟩

/-- Witness for C8: the first toggle of never-seen `doc://a` with default
`source` shows the preview and resolves to `preview`. -/
theorem first_toggle_from_default_witness :
    (toggleMarkdownView exHostOk exEmpty).outcome =
        ToggleOutcome.success "doc://a" Mode.preview ∧
      Effect.execShowPreview "doc://a" ∈ (toggleMarkdownView exHostOk exEmpty).effects ∧
      ∀ d, resolvedMode (toggleMarkdownView exHostOk exEmpty).state d "doc://a" =
        Mode.preview :=
  first_toggle_from_default exHostOk exEmpty "doc://a" rfl rfl rfl rfl rfl

/-- C9 counterexample: an invocation with a focused non-markdown editor and
a remembered last-toggled identity fails with no target and performs no
Presentation Sync update, refuting that every invocation triggers it. -/
theorem update_ui_skipped_on_no_target :
    (toggleMarkdownView exHostPlain exStateWithLast).outcome = ToggleOutcome.noTarget ∧
      ¬ Effect.runUpdateUI ∈ (toggleMarkdownView exHostPlain exStateWithLast).effects := by
  decide

/-- C9 amended: an invocation triggers the Presentation Sync update exactly
when it resolves a target — on success and on host-action failure — while a
no-target failure returns before the update. -/
theorem update_ui_iff_target (host : Host) (s : ExtState) :
    Effect.runUpdateUI ∈ (toggleMarkdownView host s).effects ↔
      (toggleMarkdownView host s).outcome ≠ ToggleOutcome.noTarget := by
  rcases ht : resolveTarget host s with _ | uri
  · simp [toggleMarkdownView, ht]
  · cases hm : resolvedMode s host.configDefault uri with
    | source =>
      rcases he : host.showPreviewError with _ | c <;>
        simp [toggleMarkdownView, ht, hm, he]
    | preview =>
      rcases he : host.showSourceError with _ | c <;>
        simp [toggleMarkdownView, ht, hm, he]

/-- C10: the exported read query returns absent for an identity with no
cache and no store entry; it never falls back to the configured default. -/
theorem get_view_state_absent (s : ExtState) (k : String)
    (hc : cacheGet s k = none) (hst : getStoredState s k = none) :
    getViewState s k = none := by
  simp [getViewState, hc, hst]

/-- Witness for C10: the fresh session reports `doc://a` as absent. -/
theorem get_view_state_absent_witness : getViewState exEmpty "doc://a" = none :=
  get_view_state_absent exEmpty "doc://a" rfl rfl

/-! ### Reconciler lemmas -/

theorem cacheEraseKey_spec (env : CleanupEnv) (k raw : String)
    (h : cacheEraseKey env k = some raw) :
    rawIdOf k = some raw ∧
      ∃ p, parseIdentity raw = some p ∧ env.isFsScheme p.scheme = true ∧
        env.statExists raw = false := by
  cases hr : rawIdOf k with
  | none => simp [cacheEraseKey, hr] at h
  | some raw' =>
    cases hp : parseIdentity raw' with
    | none => simp [cacheEraseKey, hr, hp] at h
    | some p =>
      simp only [cacheEraseKey, hr, hp] at h
      by_cases hc : (env.isFsScheme p.scheme && !env.statExists raw') = true
      · rw [if_pos hc] at h
        injection h with hru
        subst hru
        simp only [Bool.and_eq_true, Bool.not_eq_true'] at hc
        exact ⟨rfl, p, hp, hc.1, hc.2⟩
      · rw [if_neg hc] at h; exact absurd h (by simp)

theorem durableRemovable_of_cacheEraseKey (env : CleanupEnv) (k raw : String)
    (h : cacheEraseKey env k = some raw) : durableRemovable env k = true := by
  obtain ⟨hr, p, hp, hfs, hst⟩ := cacheEraseKey_spec env k raw h
  simp [durableRemovable, hr, hp, hfs, hst]

/-- One unfolding step of the reconciler pass on a cons cell. -/
theorem cleanupGo_cons (env : CleanupEnv) (k' : String) (v' : Mode)
    (tl c : List (String × Mode)) :
    cleanupGo env ((k', v') :: tl) c =
      if durableRemovable env k' then
        ((cleanupGo env tl
            (match cacheEraseKey env k' with
             | some raw => eraseA c raw
             | none => c)).1,
         (cleanupGo env tl
            (match cacheEraseKey env k' with
             | some raw => eraseA c raw
             | none => c)).2.1,
         (cleanupGo env tl
            (match cacheEraseKey env k' with
             | some raw => eraseA c raw
             | none => c)).2.2 + 1)
      else
        ((k', v') :: (cleanupGo env tl c).1, (cleanupGo env tl c).2.1,
          (cleanupGo env tl c).2.2) := rfl

theorem lookupA_cleanupGo_removed (env : CleanupEnv)
    (es c : List (String × Mode)) (k : String)
    (h : durableRemovable env k = true) :
    lookupA (cleanupGo env es c).1 k = none := by
  induction es generalizing c with
  | nil => rfl
  | cons hd tl ih =>
    obtain ⟨k', v'⟩ := hd
    rw [cleanupGo_cons]
    by_cases hrem : durableRemovable env k' = true
    · rw [if_pos hrem]
      exact ih _
    · rw [if_neg hrem]
      have hk : k' ≠ k := fun he => hrem (he ▸ h)
      show lookupA ((k', v') :: (cleanupGo env tl c).1) k = none
      simp only [lookupA, if_neg hk]
      exact ih c

theorem lookupA_cleanupGo_kept (env : CleanupEnv)
    (es c : List (String × Mode)) (k : String)
    (h : durableRemovable env k = false) :
    lookupA (cleanupGo env es c).1 k = lookupA es k := by
  induction es generalizing c with
  | nil => rfl
  | cons hd tl ih =>
    obtain ⟨k', v'⟩ := hd
    rw [cleanupGo_cons]
    by_cases hrem : durableRemovable env k' = true
    · rw [if_pos hrem]
      have hk : k' ≠ k := by
        intro he
        rw [he, h] at hrem
        exact Bool.false_ne_true hrem
      show lookupA (cleanupGo env tl
          (match cacheEraseKey env k' with
           | some raw => eraseA c raw
           | none => c)).1 k =
        lookupA ((k', v') :: tl) k
      rw [ih (match cacheEraseKey env k' with
           | some raw => eraseA c raw
           | none => c)]
      simp [lookupA, hk]
    · rw [if_neg hrem]
      show lookupA ((k', v') :: (cleanupGo env tl c).1) k = lookupA ((k', v') :: tl) k
      by_cases hk : k' = k
      · simp [lookupA, hk]
      · simp [lookupA, hk, ih c]

theorem cleanupGo_cache_stays_none (env : CleanupEnv)
    (es c : List (String × Mode)) (u : String)
    (h : lookupA c u = none) :
    lookupA (cleanupGo env es c).2.1 u = none := by
  induction es generalizing c with
  | nil => exact h
  | cons hd tl ih =>
    obtain ⟨k', v'⟩ := hd
    rw [cleanupGo_cons]
    by_cases hrem : durableRemovable env k' = true
    · rw [if_pos hrem]
      show lookupA (cleanupGo env tl
          (match cacheEraseKey env k' with
           | some raw => eraseA c raw
           | none => c)).2.1 u = none
      apply ih
      cases hck : cacheEraseKey env k' with
      | none => exact h
      | some raw =>
        by_cases hru : raw = u
        · rw [hru]; exact lookupA_eraseA_self c u
        · rw [lookupA_eraseA_ne c raw u hru]; exact h
    · rw [if_neg hrem]
      show lookupA (cleanupGo env tl c).2.1 u = none
      exact ih c h

theorem cleanupGo_cache_erased (env : CleanupEnv)
    (es c : List (String × Mode)) (k u : String) (m : Mode)
    (hmem : lookupA es k = some m) (hck : cacheEraseKey env k = some u) :
    lookupA (cleanupGo env es c).2.1 u = none := by
  induction es generalizing c with
  | nil => simp [lookupA] at hmem
  | cons hd tl ih =>
    obtain ⟨k', v'⟩ := hd
    rw [cleanupGo_cons]
    by_cases hk : k' = k
    · subst hk
      have hrem := durableRemovable_of_cacheEraseKey env k' u hck
      rw [if_pos hrem]
      show lookupA (cleanupGo env tl
          (match cacheEraseKey env k' with
           | some raw => eraseA c raw
           | none => c)).2.1 u = none
      rw [hck]
      exact cleanupGo_cache_stays_none env tl _ _ (lookupA_eraseA_self c _)
    · have hmem' : lookupA tl k = some m := by
        simpa [lookupA, hk] using hmem
      by_cases hrem : durableRemovable env k' = true
      · rw [if_pos hrem]
        show lookupA (cleanupGo env tl
            (match cacheEraseKey env k' with
             | some raw => eraseA c raw
             | none => c)).2.1 u = none
        exact ih _ hmem'
      · rw [if_neg hrem]
        show lookupA (cleanupGo env tl c).2.1 u = none
        exact ih c hmem'

theorem cleanupGo_cache_untouched (env : CleanupEnv)
    (es c : List (String × Mode)) (u : String)
    (h : ∀ k raw, cacheEraseKey env k = some raw → raw ≠ u) :
    lookupA (cleanupGo env es c).2.1 u = lookupA c u := by
  induction es generalizing c with
  | nil => rfl
  | cons hd tl ih =>
    obtain ⟨k', v'⟩ := hd
    rw [cleanupGo_cons]
    by_cases hrem : durableRemovable env k' = true
    · rw [if_pos hrem]
      show lookupA (cleanupGo env tl
          (match cacheEraseKey env k' with
           | some raw => eraseA c raw
           | none => c)).2.1 u = lookupA c u
      cases hck : cacheEraseKey env k' with
      | none => exact ih c
      | some raw =>
        rw [ih (eraseA c raw)]
        exact lookupA_eraseA_ne c raw u (h k' raw hck)
    · rw [if_neg hrem]
      show lookupA (cleanupGo env tl c).2.1 u = lookupA c u
      exact ih c

theorem cleanupGo_count_pos (env : CleanupEnv)
    (es c : List (String × Mode)) (k : String) (m : Mode)
    (hmem : lookupA es k = some m) (h : durableRemovable env k = true) :
    1 ≤ (cleanupGo env es c).2.2 := by
  induction es generalizing c with
  | nil => simp [lookupA] at hmem
  | cons hd tl ih =>
    obtain ⟨k', v'⟩ := hd
    rw [cleanupGo_cons]
    by_cases hrem : durableRemovable env k' = true
    · rw [if_pos hrem]
      show 1 ≤ (cleanupGo env tl
          (match cacheEraseKey env k' with
           | some raw => eraseA c raw
           | none => c)).2.2 + 1
      exact Nat.le_add_left 1 _
    · rw [if_neg hrem]
      have hk : k' ≠ k := fun he => hrem (he ▸ h)
      have hmem' : lookupA tl k = some m := by
        simpa [lookupA, hk] using hmem
      show 1 ≤ (cleanupGo env tl c).2.2
      exact ih c hmem'

theorem cleanupGo_count_total (env : CleanupEnv)
    (es c : List (String × Mode)) :
    es.length = (cleanupGo env es c).1.length + (cleanupGo env es c).2.2 := by
  induction es generalizing c with
  | nil => rfl
  | cons hd tl ih =>
    obtain ⟨k', v'⟩ := hd
    rw [cleanupGo_cons]
    by_cases hrem : durableRemovable env k' = true
    · rw [if_pos hrem]
      have hone := ih (match cacheEraseKey env k' with
        | some raw => eraseA c raw
        | none => c)
      show ((k', v') :: tl).length =
        (cleanupGo env tl
            (match cacheEraseKey env k' with
             | some raw => eraseA c raw
             | none => c)).1.length +
          ((cleanupGo env tl
            (match cacheEraseKey env k' with
             | some raw => eraseA c raw
             | none => c)).2.2 + 1)
      simp only [List.length_cons]
      omega
    · rw [if_neg hrem]
      have hone := ih c
      show ((k', v') :: tl).length =
        ((k', v') :: (cleanupGo env tl c).1).length + (cleanupGo env tl c).2.2
      simp only [List.length_cons]
      omega

/-! ### Claim theorems for the Reconciler -/

/-- C6: a durable entry whose raw identity parses, is filesystem-backed and
is probed absent is removed by `cleanupStaleEntries` from both the durable
store and the Mode Cache, it is included in the count, and the returned
count is the total number of durable entries removed. -/
theorem cleanup_removes_stale (env : CleanupEnv) (s : ExtState)
    (k u : String) (m : Mode) (p : ParsedIdentity)
    (hraw : rawIdOf k = some u)
    (hmem : lookupA s.globalState k = some m)
    (hp : parseIdentity u = some p)
    (hfs : env.isFsScheme p.scheme = true)
    (hprobe : env.statExists u = false) :
    lookupA (cleanupStaleEntries env s).1.globalState k = none ∧
      lookupA (cleanupStaleEntries env s).1.viewStates u = none ∧
      1 ≤ (cleanupStaleEntries env s).2 ∧
      s.globalState.length =
        (cleanupStaleEntries env s).1.globalState.length +
          (cleanupStaleEntries env s).2 := by
  have hrem : durableRemovable env k = true := by
    simp [durableRemovable, hraw, hp, hfs, hprobe]
  have hck : cacheEraseKey env k = some u := by
    simp [cacheEraseKey, hraw, hp, hfs, hprobe]
  refine ⟨?_, ?_, ?_, ?_⟩
  · exact lookupA_cleanupGo_removed env s.globalState s.viewStates k hrem
  · exact cleanupGo_cache_erased env s.globalState s.viewStates k u m hmem hck
  · exact cleanupGo_count_pos env s.globalState s.viewStates k m hmem hrem
  · exact cleanupGo_count_total env s.globalState s.viewStates

/-- Witness for C6: with the stale `file:///b` entry probed absent, cleanup
deletes the durable entry and the cache entry and counts exactly it. -/
theorem cleanup_removes_stale_witness :
    lookupA (cleanupStaleEntries exEnv exStale).1.globalState
        "markdownToggle.viewMode.file:///b" = none ∧
      lookupA (cleanupStaleEntries exEnv exStale).1.viewStates "file:///b" = none ∧
      1 ≤ (cleanupStaleEntries exEnv exStale).2 ∧
      exStale.globalState.length =
        (cleanupStaleEntries exEnv exStale).1.globalState.length +
          (cleanupStaleEntries exEnv exStale).2 :=
  cleanup_removes_stale exEnv exStale "markdownToggle.viewMode.file:///b" "file:///b"
    Mode.preview (ParsedIdentity.mk "file" "/b")
    (by decide) (by decide) (by decide) (by decide) (by decide)

/-- C7: an identity whose scheme is not filesystem-backed is never removed
by `cleanupStaleEntries` — its durable entry and its cache entry read the
same before and after, whatever the probe reports. -/
theorem cleanup_keeps_non_fs (env : CleanupEnv) (s : ExtState)
    (k u : String) (p : ParsedIdentity)
    (hraw : rawIdOf k = some u)
    (hp : parseIdentity u = some p)
    (hfs : env.isFsScheme p.scheme = false) :
    lookupA (cleanupStaleEntries env s).1.globalState k =
        lookupA s.globalState k ∧
      lookupA (cleanupStaleEntries env s).1.viewStates u =
        lookupA s.viewStates u := by
  have hrem : durableRemovable env k = false := by
    simp [durableRemovable, hraw, hp, hfs]
  have hpres : ∀ k' raw, cacheEraseKey env k' = some raw → raw ≠ u := by
    intro k' raw hck hequ
    obtain ⟨hr, p', hp', hfs', hst'⟩ := cacheEraseKey_spec env k' raw hck
    rw [hequ, hp] at hp'
    injection hp' with hpp
    subst hpp
    rw [hfs] at hfs'
    exact Bool.false_ne_true hfs'
  exact ⟨lookupA_cleanupGo_kept env s.globalState s.viewStates k hrem,
    cleanupGo_cache_untouched env s.globalState s.viewStates u hpres⟩

/-- Witness for C7: the `untitled://c` entry survives cleanup in both the
durable store and the cache even though its probe reports absent. -/
theorem cleanup_keeps_non_fs_witness :
    lookupA (cleanupStaleEntries exEnv exUntitled).1.globalState
        "markdownToggle.viewMode.untitled://c" =
      lookupA exUntitled.globalState "markdownToggle.viewMode.untitled://c" ∧
      lookupA (cleanupStaleEntries exEnv exUntitled).1.viewStates "untitled://c" =
        lookupA exUntitled.viewStates "untitled://c" :=
  cleanup_keeps_non_fs exEnv exUntitled "markdownToggle.viewMode.untitled://c"
    "untitled://c" (ParsedIdentity.mk "untitled" "c")
    (by decide) (by decide) (by decide)

end MarkdownToggle
